import Mathlib

/-!
# jmsh: login flow, asset lookup and terminal session loop

A shallow embedding of `jmsh.go` (package `jmsh`).

* Go strings are modelled as lists of characters (`Str`).  Every string the
  modelled code inspects byte-wise is compared against ASCII bytes only
  (`"`, line feed, white space), for which the byte view and the character
  view of a UTF-8 string agree.
* Calls into libraries (HTTP, JSON, RSA, websocket, terminal) are modelled by
  their results, supplied as an environment record or as a list of events.
* A run-time panic of the Go program is an explicit outcome of the model.
-/

namespace Jmsh

/-! ## Strings and errors -/

/-- Go `string`. -/
abbrev Str := List Char

/-- The double quote character. -/
def dq : Char := Char.ofNat 34

/-- The line feed character. -/
def lf : Char := Char.ofNat 10

/-- Go `error` values that the package produces or passes on. -/
inductive GoError where
  /-- The package variable `ErrLoginFailed`. -/
  | ErrLoginFailed
  /-- An error built with `fmt.Errorf`, with its formatted text. -/
  | errorf (text : Str)
  /-- An error handed back by a library call. -/
  | lib (code : Nat)
  deriving DecidableEq, Repr

/-! ## Token extraction

The three field patterns of the source have the shape
`name="<field>"\s*?value="(.+?)"`; `FindStringSubmatch` returns the leftmost
match and, at that position, the match a backtracking search prefers.
-/

/-- Character class `\s` of Go regular expressions: tab, line feed, form feed,
carriage return, space. -/
def isSpace (c : Char) : Bool :=
  c = Char.ofNat 9 || c = lf || c = Char.ofNat 12 || c = Char.ofNat 13 || c = ' '

/-- Match a literal at the head of the input; the result is the remaining input. -/
def stripLit : Str → Str → Option Str
  | [], s => some s
  | _ :: _, [] => none
  | p :: ps, c :: cs => if p = c then stripLit ps cs else none

/-- The tail of `(.+?)"` once the first character of the group is consumed:
stop at the first double quote, otherwise consume one more character, which
must not be a line feed.  The result is the rest of the captured group. -/
def lazyDotQuote : Str → Option Str
  | [] => none
  | c :: cs =>
    if c = dq then some []
    else if c = lf then none
    else (lazyDotQuote cs).map (fun v => c :: v)

/-- Pattern `(.+?)"`: one character that is not a line feed, then `lazyDotQuote`. -/
def captureValue : Str → Option Str
  | [] => none
  | c :: cs => if c = lf then none else (lazyDotQuote cs).map (fun v => c :: v)

/-- The literal `value="`. -/
def valueLit : Str := "value=\"".toList

/-- Pattern `\s*?value="(.+?)"`: try the rest of the pattern first, and consume one
white-space character only when that fails. -/
def afterName : Str → Option Str
  | [] => (stripLit valueLit []).bind captureValue
  | c :: cs =>
    match (stripLit valueLit (c :: cs)).bind captureValue with
    | some v => some v
    | none => if isSpace c then afterName cs else none

/-- The whole pattern anchored at the head of the input, for the literal
`name="<field>"` given as `nameLit`. -/
def matchHere (nameLit : Str) (s : Str) : Option Str :=
  (stripLit nameLit s).bind afterName

/-- Call `regexp.MustCompile(pattern).FindStringSubmatch(text)` reduced to what
the callers use: `none` when `len(m) == 0`, otherwise `m[1]`. -/
def findField (nameLit : Str) : Str → Option Str
  | [] => matchHere nameLit []
  | c :: cs =>
    match matchHere nameLit (c :: cs) with
    | some v => some v
    | none => findField nameLit cs

/-- The literal `name="csrfmiddlewaretoken"`. -/
def csrfName : Str := "name=\"csrfmiddlewaretoken\"".toList

/-- The literal `name="captcha_0"`. -/
def captchaName : Str := "name=\"captcha_0\"".toList

/-- Extraction of the csrf token, as done in `FetchLoginPage`, `Submit` and
`SubmitOTP`. -/
def findCsrf (text : Str) : Option Str := findField csrfName text

/-- A value the group `(.+?)` can capture before a closing quote: not empty,
no line feed, and no double quote after its first character. -/
def GoodValue (v : Str) : Prop :=
  ∃ c body, v = c :: body ∧ c ≠ lf ∧ ∀ d ∈ body, d ≠ dq ∧ d ≠ lf

/-- The text splits as `pre`, `name="csrfmiddlewaretoken"`, white space `ws`,
`value="`, `v`, a double quote and `post`. -/
def IsCsrfField (text pre ws v post : Str) : Prop :=
  text = pre ++ (csrfName ++ (ws ++ (valueLit ++ (v ++ dq :: post)))) ∧
    (∀ c ∈ ws, isSpace c = true) ∧ GoodValue v

/-! ## Login flow -/

/-- Go `url.Values` restricted to single-valued keys, which is all that
`Set` produces. -/
abbrev Values := List (Str × Str)

/-- Method `url.Values.Set`: the key is bound to the given value alone. -/
def Values.Set (v : Values) (key value : Str) : Values :=
  (key, value) :: v.filter (fun p => p.1 != key)

/-- The value bound to a key, when the form has the key. -/
def Values.Get (v : Values) (key : Str) : Option Str := v.lookup key

/-- Type `Client`: the endpoint in its `String()` form (the cookie jar is not
observed by the modelled functions). -/
structure Client where
  endpoint : Str
  deriving DecidableEq, Repr

/-- An `*rsa.PublicKey`. -/
structure RsaPublicKey where
  N : Nat
  E : Nat
  deriving DecidableEq, Repr

/-- Type `LoginPage`. -/
structure LoginPage where
  csrftoken : Str
  rsaPublicKey : RsaPublicKey
  captcha0 : Str
  captchaImg : Str
  client : Client
  deriving DecidableEq, Repr

/-- Method `LoginPage.HasCaptcha`. -/
def LoginPage.HasCaptcha (lp : LoginPage) : Bool := lp.captcha0 != []

/-- Type `LoginResult`; the `client` pointer may be nil. -/
structure LoginResult where
  client : Option Client
  hasOTP : Bool
  csrftoken : Str
  deriving DecidableEq, Repr

/-- The composite literal `&LoginResult{}`. -/
def LoginResult.zero : LoginResult := ⟨none, false, []⟩

/-- Method `LoginResult.HasOTP`. -/
def LoginResult.HasOTP (lr : LoginResult) : Bool := lr.hasOTP

/-- What the code reads from an `*http.Response`: status code and text, the
path of the final request after redirects (`r.Request.URL.Path`) and the
result of `ioutil.ReadAll(r.Body)`. -/
structure Response where
  StatusCode : Int
  Status : Str
  Path : Str
  Body : Except GoError Str

/-- Results of the library calls made by `Submit` and `SubmitOTP`. -/
structure HttpEnv where
  /-- Call `rsa.EncryptPKCS1v15(rand.Reader, key, plaintext)`. -/
  encrypt : RsaPublicKey → Str → Except GoError (List Nat)
  /-- Call `base64.StdEncoding.EncodeToString`. -/
  base64 : List Nat → Str
  /-- Call `PostForm(url, form)`. -/
  postForm : Str → Values → Except GoError Response

/-- Observable behaviour of `Submit` and `SubmitOTP`: the request posted, if
any, and the returned pair `(*LoginResult, error)`. -/
structure LoginOut where
  posted : Option (Str × Values)
  result : Option LoginResult
  err : Option GoError

/-- The path `/` of the page shown after a successful login. -/
def rootPath : Str := "/".toList

/-- The path of the one-time-password page. -/
def otpPath : Str := "/core/auth/login/otp/".toList

/-- The form `Submit` posts, given the base64 text of the encrypted password. -/
def loginForm (lp : LoginPage) (username encoded captcha : Str) : Values :=
  let form : Values := []
  let form := form.Set "csrfmiddlewaretoken".toList lp.csrftoken
  let form := form.Set "username".toList username
  let form := form.Set "password".toList encoded
  if captcha ≠ [] then
    (form.Set "captcha_0".toList lp.captcha0).Set "captcha_1".toList captcha
  else form

/-- The URL `Submit` posts to. -/
def loginURL (c : Client) : Str := c.endpoint ++ "/core/auth/login/".toList

/-- The URL `SubmitOTP` posts to. -/
def otpURL (c : Client) : Str := c.endpoint ++ otpPath

/-- Method `LoginPage.Submit`.  Nothing between the first `form.Set` and the failure
return of the encryption reads the form, so the form is built in one step
once the ciphertext is known. -/
def LoginPage.Submit (env : HttpEnv) (lp : LoginPage) (username password captcha : Str) :
    LoginOut :=
  match env.encrypt lp.rsaPublicKey password with
  | .error e => ⟨none, none, some e⟩
  | .ok encryptedPassword =>
    let form := loginForm lp username (env.base64 encryptedPassword) captcha
    let url := loginURL lp.client
    match env.postForm url form with
    | .error e => ⟨some (url, form), none, some e⟩
    | .ok r =>
      match r.Body with
      | .error e => ⟨some (url, form), none, some e⟩
      | .ok text =>
        if r.StatusCode ≠ 200 then
          ⟨some (url, form), none, some (.errorf ("submit login form got ".toList ++ r.Status))⟩
        else if r.Path ≠ rootPath then
          if r.Path = otpPath then
            match findCsrf text with
            | none => ⟨some (url, form), none, some (.errorf "failed to get csrftoken".toList)⟩
            | some csrftoken =>
              ⟨some (url, form), some ⟨some lp.client, true, csrftoken⟩, some .ErrLoginFailed⟩
          else ⟨some (url, form), some LoginResult.zero, some .ErrLoginFailed⟩
        else ⟨some (url, form), some LoginResult.zero, none⟩

/-- The form `SubmitOTP` posts. -/
def otpForm (csrftoken otp : Str) : Values :=
  let form : Values := []
  let form := form.Set "csrfmiddlewaretoken".toList csrftoken
  form.Set "otp_code".toList otp

/-- Method `LoginResult.SubmitOTP`.  The result is `none` when the call panics: a
nil `lr.client` is dereferenced to build the request. -/
def LoginResult.SubmitOTP (env : HttpEnv) (lr : LoginResult) (otp : Str) : Option LoginOut :=
  let form := otpForm lr.csrftoken otp
  match lr.client with
  | none => none
  | some client =>
    let url := otpURL client
    match env.postForm url form with
    | .error e => some ⟨some (url, form), none, some e⟩
    | .ok r =>
      match r.Body with
      | .error e => some ⟨some (url, form), none, some e⟩
      | .ok text =>
        if r.StatusCode ≠ 200 then
          some ⟨some (url, form), none, some (.errorf ("submit otp form got ".toList ++ r.Status))⟩
        else if r.Path ≠ rootPath then
          if r.Path = otpPath then
            match findCsrf text with
            | none =>
              some ⟨some (url, form), none, some (.errorf "failed to get csrftoken".toList)⟩
            | some csrftoken =>
              some ⟨some (url, form), some ⟨none, true, csrftoken⟩, some .ErrLoginFailed⟩
          else some ⟨some (url, form), some LoginResult.zero, some .ErrLoginFailed⟩
        else some ⟨some (url, form), some LoginResult.zero, none⟩

/-! ## Login page -/

/-- The pattern `.*"` matched greedily: consume one more character that is
not a line feed whenever the rest can still match, and otherwise stop at a
double quote.  The result is the text consumed, closing quote included. -/
def greedyDotQuote : Str → Option Str
  | [] => none
  | c :: cs =>
    if c = lf then none
    else
      match greedyDotQuote cs with
      | some v => some (c :: v)
      | none => if c = dq then some [dq] else none

/-- The pattern `.+"` matched greedily: one character that is not a line
feed, then `greedyDotQuote`. -/
def greedyValue : Str → Option Str
  | [] => none
  | c :: cs => if c = lf then none else (greedyDotQuote cs).map (fun v => c :: v)

/-- The literal `var rsaPublicKey = "`, up to and including the opening quote
of the group. -/
def rsaKeyLit : Str := "var rsaPublicKey = \"".toList

/-- The pattern `var rsaPublicKey = (".+")` anchored at the head of the
input; the result is the group, quotes included. -/
def matchKeyHere (s : Str) : Option Str :=
  ((stripLit rsaKeyLit s).bind greedyValue).map (fun v => dq :: v)

/-- The call `FindStringSubmatch` for the pattern `var rsaPublicKey = (".+")`:
`none` when `len(m) == 0`, otherwise `m[1]`. -/
def findRsaKey : Str → Option Str
  | [] => matchKeyHere []
  | c :: cs =>
    match matchKeyHere (c :: cs) with
    | some v => some v
    | none => findRsaKey cs

/-- A key returned by `x509.ParsePKIXPublicKey`: an `*rsa.PublicKey` or a key
of another algorithm. -/
inductive PublicKey where
  /-- An `*rsa.PublicKey`. -/
  | rsa (key : RsaPublicKey)
  /-- A key of another type, such as `*ecdsa.PublicKey`. -/
  | other (algorithm : Str)
  deriving DecidableEq, Repr

/-- Results of the library calls made by `FetchLoginPage`. -/
structure FetchEnv where
  /-- Call `c.Get(url)`. -/
  get : Str → Except GoError Response
  /-- The bytes `ioutil.ReadAll` returns together with an error. -/
  readSoFar : Str
  /-- Call `json.Unmarshal([]byte(literal), &pubKeyText)`. -/
  unmarshalString : Str → Except GoError Str
  /-- Call `pem.Decode`: the `Bytes` of the block found, or `none` when the
  returned block is nil. -/
  pemDecode : Str → Option (List Nat)
  /-- Call `x509.ParsePKIXPublicKey`. -/
  parsePKIX : List Nat → Except GoError PublicKey
  /-- The text of an error, as printed by the verb `%s`. -/
  errorText : GoError → Str

/-- How a call of `FetchLoginPage` ends. -/
inductive FetchOutcome where
  /-- The pair `(page, nil)`. -/
  | page (lp : LoginPage)
  /-- The pair `(nil, err)`. -/
  | failed (err : GoError)
  /-- A run-time panic. -/
  | panicked
  deriving DecidableEq, Repr

/-- The text `string(content)` in `FetchLoginPage`, where the error of
`ioutil.ReadAll` is not looked at. -/
def pageText (env : FetchEnv) (r : Response) : Str :=
  match r.Body with
  | .ok content => content
  | .error _ => env.readSoFar

/-- Method `Client.FetchLoginPage`. -/
def Client.FetchLoginPage (env : FetchEnv) (c : Client) : FetchOutcome :=
  match env.get (loginURL c) with
  | .error e => .failed e
  | .ok r =>
    let text := pageText env r
    if r.StatusCode ≠ 200 then
      .failed (.errorf ("access login page got ".toList ++ r.Status))
    else
      match findCsrf text with
      | none => .failed (.errorf "failed to get csrftoken".toList)
      | some csrftoken =>
        match findRsaKey text with
        | none => .failed (.errorf "failed to get rsaPublicKey".toList)
        | some literal =>
          match env.unmarshalString literal with
          | .error e =>
            .failed (.errorf
              ("failed to parse rsaPublicKey in json form: ".toList ++ env.errorText e))
          | .ok pubKeyText =>
            match env.pemDecode pubKeyText with
            | none => .panicked
            | some bytes =>
              match env.parsePKIX bytes with
              | .error e =>
                .failed (.errorf
                  ("failed to parse rsaPublicKey in pem form: ".toList ++ env.errorText e))
              | .ok (.other _) =>
                .failed (.errorf "invalid rsaPublicKey on login page".toList)
              | .ok (.rsa rsaPublicKey) =>
                match findField captchaName text with
                | some captcha0 =>
                  .page ⟨csrftoken, rsaPublicKey, captcha0,
                    c.endpoint ++ "/core/auth/captcha/image/".toList ++ captcha0 ++ "/".toList,
                    c⟩
                | none => .page ⟨csrftoken, rsaPublicKey, [], [], c⟩

/-! ## Asset lookup -/

/-- Type `Asset`. -/
structure Asset where
  ID : Str
  Hostname : Str
  Nodes : List Str
  deriving DecidableEq, Repr

/-- The zero value `Asset{}`. -/
def Asset.zero : Asset := ⟨[], [], []⟩

/-- Results of the library calls made by `FindAssetByHostname`. -/
structure AssetEnv where
  /-- Call `http.NewRequest("GET", url, nil)`: its error, if any. -/
  newRequest : Str → Option GoError
  /-- Call `c.Do(req)` for the request with the given URL and query. -/
  doRequest : Str → Values → Except GoError Response
  /-- Call `json.Unmarshal(content, &result)` followed by `result.Results`. -/
  unmarshal : Str → Except GoError (List Asset)

/-- The request URL `c.endpoint.String()+"/api/v1/assets/assets/"`. -/
def assetsURL (c : Client) : Str := c.endpoint ++ "/api/v1/assets/assets/".toList

/-- The query `FindAssetByHostname` sets on its request. -/
def assetQuery (hostname : Str) : Values :=
  let query : Values := []
  let query := query.Set "hostname".toList hostname
  let query := query.Set "offset".toList "0".toList
  let query := query.Set "limit".toList "100".toList
  let query := query.Set "display".toList "1".toList
  query.Set "draw".toList "1".toList

/-- Method `Client.FindAssetByHostname`, returning `(Asset, bool, error)`. -/
def Client.FindAssetByHostname (env : AssetEnv) (c : Client) (hostname : Str) :
    Asset × Bool × Option GoError :=
  if hostname = [] then
    (Asset.zero, false, some (.errorf "hostname must not be empty".toList))
  else
    match env.newRequest (assetsURL c) with
    | some e => (Asset.zero, false, some e)
    | none =>
      match env.doRequest (assetsURL c) (assetQuery hostname) with
      | .error e => (Asset.zero, false, some e)
      | .ok r =>
        match r.Body with
        | .error e => (Asset.zero, false, some e)
        | .ok content =>
          if r.StatusCode ≠ 200 then
            (Asset.zero, false, some (.errorf ("api request failed: ".toList ++ r.Status)))
          else
            match env.unmarshal content with
            | .error e => (Asset.zero, false, some e)
            | .ok results =>
              match results with
              | [] => (Asset.zero, false, none)
              | first :: _ =>
                if first.Hostname ≠ hostname then
                  (Asset.zero, false,
                    some (.errorf ("expected asset ".toList ++ hostname ++
                      ", but got ".toList ++ first.Hostname)))
                else (first, true, none)

/-! ## Terminal session -/

/-- Type `Message`, one JSON frame of the channel (`Type_` is the field `Type`). -/
structure Message where
  Id : Str
  Type_ : Str
  Data : Str
  deriving DecidableEq, Repr

/-- Message type `PING`. -/
def PING : Str := "PING".toList
/-- Message type `CONNECT`. -/
def CONNECT : Str := "CONNECT".toList
/-- Message type `CLOSE`. -/
def CLOSE : Str := "CLOSE".toList
/-- Message type `TERMINAL_INIT`. -/
def TERMINALINIT : Str := "TERMINAL_INIT".toList
/-- Message type `TERMINAL_DATA`. -/
def TERMINALDATA : Str := "TERMINAL_DATA".toList
/-- Message type `TERMINAL_RESIZE`. -/
def TERMINALRESIZE : Str := "TERMINAL_RESIZE".toList

/-- The verb `%d` of `fmt.Sprintf` on an `int`. -/
def fmtInt : Int → Str
  | .ofNat n => Nat.toDigits 10 n
  | .negSucc n => '-' :: Nat.toDigits 10 (n + 1)

/-- The geometry payload built with
`fmt.Sprintf("{\"cols\":%d,\"rows\":%d}", w, h)`. -/
def sizeJSON (w h : Int) : Str :=
  "\x7b\"cols\":".toList ++ fmtInt w ++ ",\"rows\":".toList ++ fmtInt h ++ "\x7d".toList

/-- Results of the calls `enterTty` makes before its loop. -/
structure TtyEnv where
  /-- Call `ws.ReadJSON(&firstMsg)`. -/
  firstMsg : Except GoError Message
  /-- Call `tty.Open()`: its error, if any. -/
  ttyOpen : Option GoError
  /-- Call `t.Raw()`: its error, if any. -/
  ttyRaw : Option GoError
  /-- Call `t.Size()`. -/
  ttySize : Except GoError (Int × Int)
  /-- Call `ws.WriteJSON` of the `TERMINAL_INIT` message: its error, if any. -/
  initWrite : Option GoError

/-- One iteration of the `select`: the case that fires, the value received
and the result of the write its handler makes.  A list of events is one
schedule of the three sources. -/
inductive Event where
  /-- A value `s` from `sigwatch`; `writeErr` is the result of the
  `TERMINAL_RESIZE` write. -/
  | sigwinch (W H : Int) (writeErr : Option GoError)
  /-- A value `ti` from `ttyInput`; `writeErr` is the result of the
  `TERMINAL_DATA` write. -/
  | ttyInput (data : Str) (err : Option GoError) (writeErr : Option GoError)
  /-- A value `wi` from `wsInput`; `ioErr` is the result of the write the
  handler makes (local output for `TERMINAL_DATA` and `CLOSE`, the channel
  for `PING`). -/
  | wsInput (msg : Message) (err : Option GoError) (ioErr : Option GoError)
  deriving DecidableEq, Repr

/-- A write call made by `enterTty`, recorded whether or not it succeeds. -/
inductive Effect where
  /-- Call `ws.WriteJSON(m)`. -/
  | wsWrite (m : Message)
  /-- A write of bytes to `t.Output()`. -/
  | ttyWrite (bytes : Str)
  deriving DecidableEq, Repr

/-- How a run of `enterTty` over a finite schedule ends. -/
inductive Outcome where
  /-- The schedule is used up and the loop waits in `select`. -/
  | running
  /-- The function returned the given `error` (`none` is nil). -/
  | returned (err : Option GoError)
  /-- A run-time panic. -/
  | panicked
  deriving DecidableEq, Repr

/-- Put a write in front of the writes of the rest of the run. -/
def emit (e : Effect) (r : List Effect × Outcome) : List Effect × Outcome :=
  (e :: r.1, r.2)

/-- The `for { select { ... } }` loop of `enterTty`, with the session id
`cid` and the current value of `lastOutput`. -/
def sessionLoop (cid : Str) : Str → List Event → List Effect × Outcome
  | _, [] => ([], .running)
  | lastOutput, .sigwinch W H writeErr :: rest =>
    let m : Message := ⟨cid, TERMINALRESIZE, sizeJSON W H⟩
    match writeErr with
    | some e => ([.wsWrite m], .returned (some e))
    | none => emit (.wsWrite m) (sessionLoop cid lastOutput rest)
  | lastOutput, .ttyInput data err writeErr :: rest =>
    if err ≠ none then ([], .returned err)
    else
      let m : Message := ⟨cid, TERMINALDATA, data⟩
      match writeErr with
      | some e => ([.wsWrite m], .returned (some e))
      | none => emit (.wsWrite m) (sessionLoop cid lastOutput rest)
  | lastOutput, .wsInput msg err ioErr :: rest =>
    if err ≠ none then ([], .returned err)
    else if msg.Type_ = TERMINALDATA then
      match ioErr with
      | some e => ([.ttyWrite msg.Data], .returned (some e))
      | none => emit (.ttyWrite msg.Data) (sessionLoop cid msg.Data rest)
    else if msg.Type_ = CLOSE then
      match lastOutput.getLast? with
      | none => ([], .panicked)
      | some b =>
        if b ≠ lf then ([.ttyWrite "\r\n".toList], .returned none)
        else ([], .returned none)
    else if msg.Type_ = PING then
      match ioErr with
      | some _ => ([.wsWrite msg], .returned err)
      | none => emit (.wsWrite msg) (sessionLoop cid lastOutput rest)
    else sessionLoop cid lastOutput rest

/-- Method `Client.enterTty`: the writes made, in program order, and how the call
ends. -/
def enterTty (env : TtyEnv) (events : List Event) : List Effect × Outcome :=
  match env.firstMsg with
  | .error e => ([], .returned (some e))
  | .ok firstMsg =>
    if firstMsg.Type_ ≠ CONNECT then
      ([], .returned (some (.errorf
        ("Expected got CONNECT message, but got ".toList ++ firstMsg.Type_))))
    else
      let cid := firstMsg.Id
      match env.ttyOpen with
      | some e => ([], .returned (some e))
      | none =>
        match env.ttyRaw with
        | some e => ([], .returned (some e))
        | none =>
          match env.ttySize with
          | .error e => ([], .returned (some e))
          | .ok (w, h) =>
            let init : Message := ⟨cid, TERMINALINIT, sizeJSON w h⟩
            match env.initWrite with
            | some e => ([.wsWrite init], .returned (some e))
            | none => emit (.wsWrite init) (sessionLoop cid [] events)

/-- The messages handed to `ws.WriteJSON`, in order. -/
def wsWrites : List Effect → List Message
  | [] => []
  | .wsWrite m :: t => m :: wsWrites t
  | .ttyWrite _ :: t => wsWrites t

/-- The bytes written to the local output, in order. -/
def ttyBytes : List Effect → Str
  | [] => []
  | .wsWrite _ :: t => ttyBytes t
  | .ttyWrite b :: t => b ++ ttyBytes t

/-! ## Concrete inputs -/

/-- A page whose csrf field has an empty value. -/
def emptyValuePage : Str := "<input name=\"csrfmiddlewaretoken\" value=\"\" id=\"x\">".toList

/-- A page with one csrf field. -/
def tokenPage : Str :=
  "<input type=\"hidden\" name=\"csrfmiddlewaretoken\" value=\"tok123\">".toList

/-- A page without a csrf field. -/
def plainPage : Str := "<html>otp</html>".toList

/-- An endpoint. -/
def sampleClient : Client := ⟨"http://127.0.0.1:8080".toList⟩

/-- A login page without captcha. -/
def samplePage : LoginPage := ⟨"tok0".toList, ⟨3233, 17⟩, [], [], sampleClient⟩

/-- A login page with the captcha id `cap1`. -/
def captchaPage : LoginPage :=
  ⟨"tok0".toList, ⟨3233, 17⟩, "cap1".toList,
    "http://127.0.0.1:8080/core/auth/captcha/image/cap1/".toList, sampleClient⟩

/-- An environment in which encryption succeeds and every post is answered
with `r`. -/
def fixedEnv (r : Response) : HttpEnv :=
  ⟨fun _ _ => .ok [1, 2, 3], fun _ => "AQID".toList, fun _ _ => .ok r⟩

/-- Status 200 at the one-time-password path with the given body. -/
def otpResponse (body : Str) : Response := ⟨200, "200 OK".toList, otpPath, .ok body⟩

/-- A result that asks for a one-time password, bound to `sampleClient`. -/
def otpResult : LoginResult := ⟨some sampleClient, true, "tok1".toList⟩

/-- The asset `node1`. -/
def node1 : Asset := ⟨"a1".toList, "node1".toList, ["Default".toList]⟩

/-- An asset environment answering status 200 with the given parsed results. -/
def assetEnv (results : List Asset) : AssetEnv :=
  ⟨fun _ => none, fun _ _ => .ok ⟨200, "200 OK".toList, "/api/v1/assets/assets/".toList, .ok []⟩,
    fun _ => .ok results⟩

/-- A session whose first message is `CONNECT` with id `abc`, on an 80 by 24
terminal. -/
def connectEnv : TtyEnv := ⟨.ok ⟨"abc".toList, CONNECT, []⟩, none, none, .ok (80, 24), none⟩

/-- A session whose first message is a `PING`. -/
def pingFirstEnv : TtyEnv := ⟨.ok ⟨"abc".toList, PING, []⟩, none, none, .ok (80, 24), none⟩

/-- A `PING` from the server carrying the id `srv`. -/
def serverPing : Message := ⟨"srv".toList, PING, []⟩

/-- A `CLOSE` from the server. -/
def serverClose : Message := ⟨"abc".toList, CLOSE, []⟩

/-- A `TERMINAL_DATA` from the server. -/
def serverData (payload : Str) : Message := ⟨"abc".toList, TERMINALDATA, payload⟩

/-- A login page with a csrf field and an `rsaPublicKey` literal whose text
is not PEM. -/
def noPemPage : Str :=
  ("<input name=\"csrfmiddlewaretoken\" value=\"tok0\">\n".toList ++
    "<script>var rsaPublicKey = \"not a key\";</script>".toList)

/-- A login page with a csrf field, an `rsaPublicKey` literal and a captcha
field. -/
def fullPage : Str :=
  ("<input name=\"csrfmiddlewaretoken\" value=\"tok0\">\n".toList ++
    ("<input name=\"captcha_0\" value=\"cap1\">\n".toList ++
      "<script>var rsaPublicKey = \"PEM\";</script>".toList))

/-- An environment serving `body` with status 200, in which the literal
decodes to the text `decoded`, `pem.Decode` gives `block` and the bytes of a
block parse to `key`. -/
def fetchEnv (body decoded : Str) (block : Option (List Nat))
    (key : Except GoError PublicKey) : FetchEnv :=
  ⟨fun _ => .ok ⟨200, "200 OK".toList, "/core/auth/login/".toList, .ok body⟩, [],
    fun _ => .ok decoded, fun _ => block, fun _ => key, fun _ => "error".toList⟩

/-- The schedule in which only remote messages arrive, each read without
error and each followed by a successful write. -/
def remote (msgs : List Message) : List Event :=
  msgs.map (fun m => Event.wsInput m none none)

/-- The payloads of the `TERMINAL_DATA` messages, concatenated in order. -/
def payloads : List Message → Str
  | [] => []
  | m :: t => if m.Type_ = TERMINALDATA then m.Data ++ payloads t else payloads t

/-- The payload of the last `TERMINAL_DATA` message, or `start` when there is
none. -/
def lastPayload (start : Str) : List Message → Str
  | [] => start
  | m :: t => lastPayload (if m.Type_ = TERMINALDATA then m.Data else start) t

/-! ## Token extraction: characterisation -/

theorem stripLit_eq_some (p s r : Str) : stripLit p s = some r ↔ s = p ++ r := by
  induction p generalizing s with
  | nil => simp [stripLit, eq_comm]
  | cons a p ih =>
    cases s with
    | nil => simp [stripLit]
    | cons c cs =>
      simp only [stripLit]
      by_cases h : a = c
      · subst h
        simp [ih]
      · simp only [h, if_false, List.cons_append, List.cons.injEq]
        constructor
        · intro h'
          cases h'
        · intro h'
          exact absurd h'.1.symm h

theorem lazyDotQuote_eq_some (s b : Str) :
    lazyDotQuote s = some b ↔
      ∃ post, s = b ++ dq :: post ∧ ∀ d ∈ b, d ≠ dq ∧ d ≠ lf := by
  induction s generalizing b with
  | nil => simp [lazyDotQuote]
  | cons c cs ih =>
    simp only [lazyDotQuote]
    by_cases hq : c = dq
    · subst hq
      simp only [if_true, Option.some.injEq]
      constructor
      · intro h
        subst h
        exact ⟨cs, rfl, by simp⟩
      · rintro ⟨post, h, hb⟩
        cases b with
        | nil => rfl
        | cons d b' =>
          simp only [List.cons_append, List.cons.injEq] at h
          exact absurd h.1.symm (hb d (List.mem_cons_self _ _)).1
    · simp only [hq, if_false]
      by_cases hl : c = lf
      · subst hl
        simp only [if_true]
        constructor
        · intro h
          cases h
        · rintro ⟨post, h, hb⟩
          cases b with
          | nil =>
            simp only [List.nil_append, List.cons.injEq] at h
            exact absurd h.1 hq
          | cons d b' =>
            simp only [List.cons_append, List.cons.injEq] at h
            exact absurd h.1.symm (hb d (List.mem_cons_self _ _)).2
      · simp only [hl, if_false, Option.map_eq_some']
        constructor
        · rintro ⟨b', h, rfl⟩
          obtain ⟨post, h1, h2⟩ := (ih b').1 h
          refine ⟨post, by rw [h1]; rfl, ?_⟩
          intro d hd
          rcases List.mem_cons.1 hd with rfl | hd
          · exact ⟨hq, hl⟩
          · exact h2 d hd
        · rintro ⟨post, h, hb⟩
          cases b with
          | nil =>
            simp only [List.nil_append, List.cons.injEq] at h
            exact absurd h.1 hq
          | cons d b' =>
            simp only [List.cons_append, List.cons.injEq] at h
            refine ⟨b', (ih b').2 ⟨post, h.2, fun x hx => hb x (List.mem_cons_of_mem _ hx)⟩, ?_⟩
            rw [h.1]

theorem captureValue_eq_some (s v : Str) :
    captureValue s = some v ↔ ∃ post, s = v ++ dq :: post ∧ GoodValue v := by
  cases s with
  | nil => simp [captureValue]
  | cons c cs =>
    simp only [captureValue]
    by_cases hl : c = lf
    · subst hl
      simp only [if_true]
      constructor
      · intro h
        cases h
      · rintro ⟨post, h, d, body, rfl, hd, -⟩
        simp only [List.cons_append, List.cons.injEq] at h
        exact absurd h.1.symm hd
    · simp only [hl, if_false, Option.map_eq_some']
      constructor
      · rintro ⟨b, h, rfl⟩
        obtain ⟨post, h1, h2⟩ := (lazyDotQuote_eq_some cs b).1 h
        exact ⟨post, by rw [h1]; rfl, c, b, rfl, hl, h2⟩
      · rintro ⟨post, h, d, body, rfl, -, hb⟩
        simp only [List.cons_append, List.cons.injEq] at h
        exact ⟨body, (lazyDotQuote_eq_some cs body).2 ⟨post, h.2, hb⟩, by rw [h.1]⟩

theorem direct_eq_some (s v : Str) :
    (stripLit valueLit s).bind captureValue = some v ↔
      ∃ post, s = valueLit ++ (v ++ dq :: post) ∧ GoodValue v := by
  simp only [Option.bind_eq_some, stripLit_eq_some, captureValue_eq_some]
  constructor
  · rintro ⟨r, rfl, post, rfl, hv⟩
    exact ⟨post, rfl, hv⟩
  · rintro ⟨post, rfl, hv⟩
    exact ⟨_, rfl, post, rfl, hv⟩

theorem afterName_of_direct (s v : Str)
    (h : (stripLit valueLit s).bind captureValue = some v) : afterName s = some v := by
  cases s with
  | nil => simpa [afterName] using h
  | cons c cs => simp only [afterName, h]

theorem direct_of_space (c : Char) (cs : Str) (hc : isSpace c = true) :
    (stripLit valueLit (c :: cs)).bind captureValue = none := by
  have hne : ¬ ('v' = c) := by
    intro h
    subst h
    revert hc
    decide
  have hv : valueLit = 'v' :: "alue=\"".toList := by decide
  rw [hv]
  simp [stripLit, hne]

theorem afterName_eq_some (s v : Str) :
    afterName s = some v ↔
      ∃ ws post, s = ws ++ (valueLit ++ (v ++ dq :: post)) ∧
        (∀ c ∈ ws, isSpace c = true) ∧ GoodValue v := by
  constructor
  · induction s with
    | nil =>
      intro h
      obtain ⟨post, h1, h2⟩ := (direct_eq_some [] v).1 (by simpa [afterName] using h)
      exact ⟨[], post, h1, by simp, h2⟩
    | cons c cs ih =>
      intro h
      simp only [afterName] at h
      cases hd : (stripLit valueLit (c :: cs)).bind captureValue with
      | some v' =>
        rw [hd] at h
        cases h
        obtain ⟨post, h1, h2⟩ := (direct_eq_some (c :: cs) v).1 hd
        exact ⟨[], post, h1, by simp, h2⟩
      | none =>
        rw [hd] at h
        by_cases hc : isSpace c = true
        · simp only [hc, if_true] at h
          obtain ⟨ws, post, h1, h2, h3⟩ := ih h
          refine ⟨c :: ws, post, by rw [h1]; rfl, ?_, h3⟩
          intro d hd'
          rcases List.mem_cons.1 hd' with rfl | hd'
          · exact hc
          · exact h2 d hd'
        · simp [hc] at h
  · rintro ⟨ws, post, rfl, hws, hv⟩
    induction ws with
    | nil => exact afterName_of_direct _ _ ((direct_eq_some _ v).2 ⟨post, rfl, hv⟩)
    | cons c ws ih =>
      have hc : isSpace c = true := hws c (List.mem_cons_self _ _)
      have hrest := ih (fun d hd => hws d (List.mem_cons_of_mem _ hd))
      simp only [List.cons_append, afterName, direct_of_space c _ hc, hc, if_true]
      exact hrest

theorem matchHere_eq_some (n s v : Str) :
    matchHere n s = some v ↔
      ∃ ws post, s = n ++ (ws ++ (valueLit ++ (v ++ dq :: post))) ∧
        (∀ c ∈ ws, isSpace c = true) ∧ GoodValue v := by
  simp only [matchHere, Option.bind_eq_some, stripLit_eq_some, afterName_eq_some]
  constructor
  · rintro ⟨r, rfl, ws, post, rfl, h1, h2⟩
    exact ⟨ws, post, rfl, h1, h2⟩
  · rintro ⟨ws, post, rfl, h1, h2⟩
    exact ⟨_, rfl, ws, post, rfl, h1, h2⟩

theorem findField_of_matchHere (n s v : Str) (h : matchHere n s = some v) :
    findField n s = some v := by
  cases s with
  | nil => simpa [findField] using h
  | cons c cs => simp only [findField, h]

theorem findField_first (n v rest : Str) (h : matchHere n rest = some v) (pre : Str)
    (hfirst : ∀ k, k < pre.length → matchHere n ((pre ++ rest).drop k) = none) :
    findField n (pre ++ rest) = some v := by
  induction pre with
  | nil => exact findField_of_matchHere n rest v h
  | cons c pre ih =>
    have h0 := hfirst 0 (by simp)
    simp only [List.drop_zero, List.cons_append] at h0
    have hstep : findField n (c :: (pre ++ rest)) = findField n (pre ++ rest) := by
      rw [findField, h0]
    rw [List.cons_append, hstep]
    apply ih
    intro k hk
    have := hfirst (k + 1) (by simpa using hk)
    simpa using this

theorem findField_eq_some_split (n text v : Str) (h : findField n text = some v) :
    ∃ pre rest, text = pre ++ rest ∧ matchHere n rest = some v := by
  induction text with
  | nil => exact ⟨[], [], rfl, by simpa [findField] using h⟩
  | cons c cs ih =>
    simp only [findField] at h
    cases hm : matchHere n (c :: cs) with
    | some v' =>
      rw [hm] at h
      cases h
      exact ⟨[], c :: cs, rfl, hm⟩
    | none =>
      rw [hm] at h
      obtain ⟨pre, rest, h1, h2⟩ := ih h
      exact ⟨c :: pre, rest, by rw [h1]; rfl, h2⟩

/-- C3 (amended): the csrf field is `name="csrfmiddlewaretoken"`, any run of
white space, `value="V"` with `V` not empty, free of line feeds and with no
double quote after its first character.  Extraction returns the `V` of the
leftmost such field, and fails when the text has no such field. -/
theorem csrf_extraction (text : Str) :
    (∀ pre ws v post, IsCsrfField text pre ws v post →
      (∀ pre' ws' v' post', IsCsrfField text pre' ws' v' post' → pre.length ≤ pre'.length) →
      findCsrf text = some v) ∧
    ((∀ pre ws v post, ¬ IsCsrfField text pre ws v post) → findCsrf text = none) := by
  constructor
  · rintro pre ws v post ⟨rfl, hws, hv⟩ hmin
    apply findField_first csrfName v _ ((matchHere_eq_some _ _ v).2 ⟨ws, post, rfl, hws, hv⟩)
    intro k hk
    cases hm : matchHere csrfName
        ((pre ++ (csrfName ++ (ws ++ (valueLit ++ (v ++ dq :: post))))).drop k) with
    | none => rfl
    | some v' =>
      exfalso
      obtain ⟨ws', post', h1, h2, h3⟩ := (matchHere_eq_some _ _ v').1 hm
      have hle := hmin
        ((pre ++ (csrfName ++ (ws ++ (valueLit ++ (v ++ dq :: post))))).take k) ws' v' post'
        ⟨by rw [← h1, List.take_append_drop], h2, h3⟩
      simp only [List.length_take] at hle
      omega
  · intro hno
    cases hf : findCsrf text with
    | none => rfl
    | some v =>
      exfalso
      obtain ⟨pre, rest, h1, h2⟩ := findField_eq_some_split csrfName text v hf
      obtain ⟨ws, post, h3, h4, h5⟩ := (matchHere_eq_some _ _ v).1 h2
      exact hno pre ws v post ⟨by rw [h1, h3], h4, h5⟩

theorem isCsrfField_matchHere (text pre ws v post : Str)
    (h : IsCsrfField text pre ws v post) :
    matchHere csrfName (text.drop pre.length) = some v := by
  obtain ⟨rfl, h1, h2⟩ := h
  rw [List.drop_left]
  exact (matchHere_eq_some _ _ v).2 ⟨ws, post, rfl, h1, h2⟩

theorem findField_none_drop (n text : Str) (h : findField n text = none) (k : Nat) :
    matchHere n (text.drop k) = none := by
  induction text generalizing k with
  | nil => simpa [findField] using h
  | cons c cs ih =>
    simp only [findField] at h
    cases hm : matchHere n (c :: cs) with
    | some v' =>
      rw [hm] at h
      cases h
    | none =>
      rw [hm] at h
      cases k with
      | zero => simpa using hm
      | succ k => simpa using ih h k

/-- C3 (as stated) fails: the page `emptyValuePage` contains the csrf field
with the empty value `V`, and extraction returns the text up to the next
double quote instead of `V`. -/
theorem csrf_extraction_counterexample :
    emptyValuePage =
        "<input ".toList ++ (csrfName ++ (" ".toList ++ (valueLit ++ ([] ++ dq :: " id=\"x\">".toList)))) ∧
      findCsrf emptyValuePage = some "\" id=".toList ∧
      findCsrf emptyValuePage ≠ some [] := by
  decide

/-- C3 (amended), at `tokenPage` and `plainPage`: the token `tok123` is
extracted, and the page without field yields no token. -/
theorem csrf_extraction_witness :
    findCsrf tokenPage = some "tok123".toList ∧ findCsrf plainPage = none :=
  ⟨(csrf_extraction tokenPage).1 "<input type=\"hidden\" ".toList " ".toList "tok123".toList
      ">".toList
      ⟨by decide, by decide, 't', "ok123".toList, rfl, by decide, by decide⟩
      (by
        intro pre' ws' v' post' h
        by_contra hlt
        have hm := isCsrfField_matchHere _ _ _ _ _ h
        have hnone : ∀ k, k < 21 → matchHere csrfName (tokenPage.drop k) = none := by decide
        rw [hnone pre'.length (by simpa using hlt)] at hm
        cases hm),
    (csrf_extraction plainPage).2 (by
      intro pre ws v post h
      have hm := isCsrfField_matchHere _ _ _ _ _ h
      rw [findField_none_drop csrfName plainPage (by decide) pre.length] at hm
      cases hm)⟩

/-! ## Login flow: classification of the response -/

/-- C1 (as stated) fails: a status-200 response at the one-time-password
path whose body has no csrf field gives no `LoginResult` at all, and the
error is not `ErrLoginFailed`. -/
theorem submit_classification_counterexample :
    (otpResponse plainPage).StatusCode = 200 ∧
      (otpResponse plainPage).Path = otpPath ∧
      (samplePage.Submit (fixedEnv (otpResponse plainPage)) "admin".toList "pw".toList []).result
        = none ∧
      (samplePage.Submit (fixedEnv (otpResponse plainPage)) "admin".toList "pw".toList []).err
        = some (.errorf "failed to get csrftoken".toList) ∧
      (samplePage.Submit (fixedEnv (otpResponse plainPage)) "admin".toList "pw".toList []).err
        ≠ some .ErrLoginFailed := by
  decide

/-- C1 (amended): when the posted login form is answered with status 200 and
a readable body, `Submit` classifies by the final path: `/` gives the empty
result with a nil error; the one-time-password path gives, when the body has
a csrf field, a result with `HasOTP` true, the submitting client and the
token extracted from that body, together with `ErrLoginFailed`, and when the
body has no csrf field no result and the error `failed to get csrftoken`;
every other path gives the empty result with `ErrLoginFailed`. -/
theorem submit_classification (env : HttpEnv) (lp : LoginPage)
    (username password captcha : Str) (ct : List Nat) (r : Response) (text : Str)
    (henc : env.encrypt lp.rsaPublicKey password = .ok ct)
    (hpost : env.postForm (loginURL lp.client)
      (loginForm lp username (env.base64 ct) captcha) = .ok r)
    (hbody : r.Body = .ok text) (hstatus : r.StatusCode = 200) :
    (r.Path = rootPath →
      (lp.Submit env username password captcha).result = some LoginResult.zero ∧
      LoginResult.zero.HasOTP = false ∧
      (lp.Submit env username password captcha).err = none) ∧
    (r.Path = otpPath →
      (∀ tok, findCsrf text = some tok →
        (lp.Submit env username password captcha).result = some ⟨some lp.client, true, tok⟩ ∧
        LoginResult.HasOTP ⟨some lp.client, true, tok⟩ = true ∧
        (lp.Submit env username password captcha).err = some .ErrLoginFailed) ∧
      (findCsrf text = none →
        (lp.Submit env username password captcha).result = none ∧
        (lp.Submit env username password captcha).err =
          some (.errorf "failed to get csrftoken".toList))) ∧
    (r.Path ≠ rootPath → r.Path ≠ otpPath →
      (lp.Submit env username password captcha).result = some LoginResult.zero ∧
      LoginResult.zero.HasOTP = false ∧
      (lp.Submit env username password captcha).err = some .ErrLoginFailed) := by
  have hotp : otpPath ≠ rootPath := by decide
  refine ⟨?_, ?_, ?_⟩
  · intro hp
    simp [LoginPage.Submit, henc, hpost, hbody, hstatus, hp, LoginResult.HasOTP,
      LoginResult.zero]
  · intro hp
    refine ⟨?_, ?_⟩
    · intro tok htok
      simp [LoginPage.Submit, henc, hpost, hbody, hstatus, hp, hotp, htok, LoginResult.HasOTP]
    · intro htok
      simp [LoginPage.Submit, henc, hpost, hbody, hstatus, hp, hotp, htok]
  · intro hp1 hp2
    simp [LoginPage.Submit, henc, hpost, hbody, hstatus, hp1, hp2, LoginResult.HasOTP,
      LoginResult.zero]

/-- C1 (amended), at `samplePage` answered by the one-time-password page
`tokenPage`: the result carries the token `tok123` of the response, not the
token `tok0` of the submitted page. -/
theorem submit_classification_witness :
    (samplePage.Submit (fixedEnv (otpResponse tokenPage)) "admin".toList "pw".toList []).result
        = some ⟨some sampleClient, true, "tok123".toList⟩ ∧
      (samplePage.Submit (fixedEnv (otpResponse tokenPage)) "admin".toList "pw".toList []).err
        = some .ErrLoginFailed :=
  have h := ((submit_classification (fixedEnv (otpResponse tokenPage)) samplePage
    "admin".toList "pw".toList [] [1, 2, 3] (otpResponse tokenPage) tokenPage
    rfl rfl rfl rfl).2.1 rfl).1 "tok123".toList (by decide)
  ⟨h.1, h.2.2⟩

/-- C10 (as stated) fails: a status-200 response at the one-time-password
path whose body has no csrf field gives no `LoginResult`, and the error is
not `ErrLoginFailed`. -/
theorem submitOTP_classification_counterexample :
    (otpResponse plainPage).StatusCode = 200 ∧
      (otpResponse plainPage).Path = otpPath ∧
      otpResult.SubmitOTP (fixedEnv (otpResponse plainPage)) "812028".toList =
        some ⟨some (otpURL sampleClient, otpForm "tok1".toList "812028".toList), none,
          some (.errorf "failed to get csrftoken".toList)⟩ := by
  refine ⟨rfl, rfl, ?_⟩
  rfl

/-- C10 (amended): when `lr` is bound to a client and the posted form is
answered with status 200 and a readable body, `SubmitOTP` returns, by final
path: for `/` the empty result with a nil error; for the one-time-password
path, when the body has a csrf field, a result with `HasOTP` true and the
token extracted from that body together with `ErrLoginFailed`, and when the
body has no csrf field no result and the error `failed to get csrftoken`;
for every other path the empty result with `ErrLoginFailed`. -/
theorem submitOTP_classification (env : HttpEnv) (lr : LoginResult) (c : Client)
    (otp : Str) (r : Response) (text : Str)
    (hc : lr.client = some c)
    (hpost : env.postForm (otpURL c) (otpForm lr.csrftoken otp) = .ok r)
    (hbody : r.Body = .ok text) (hstatus : r.StatusCode = 200) :
    ∃ out, lr.SubmitOTP env otp = some out ∧
      out.posted = some (otpURL c, otpForm lr.csrftoken otp) ∧
      (r.Path = rootPath →
        out.result = some LoginResult.zero ∧ LoginResult.zero.HasOTP = false ∧
        out.err = none) ∧
      (r.Path = otpPath →
        (∀ tok, findCsrf text = some tok →
          (∃ res, out.result = some res ∧ res.HasOTP = true ∧ res.csrftoken = tok) ∧
          out.err = some .ErrLoginFailed) ∧
        (findCsrf text = none →
          out.result = none ∧ out.err = some (.errorf "failed to get csrftoken".toList))) ∧
      (r.Path ≠ rootPath → r.Path ≠ otpPath →
        out.result = some LoginResult.zero ∧ LoginResult.zero.HasOTP = false ∧
        out.err = some .ErrLoginFailed) := by
  have hotp : otpPath ≠ rootPath := by decide
  by_cases hp1 : r.Path = rootPath
  · have hp2 : r.Path ≠ otpPath := fun h => hotp (h.symm.trans hp1)
    refine ⟨⟨some (otpURL c, otpForm lr.csrftoken otp), some LoginResult.zero, none⟩, ?_, rfl, ?_⟩
    · simp [LoginResult.SubmitOTP, hc, hpost, hbody, hstatus, hp1]
    · simp [hp1, hp2, LoginResult.HasOTP, LoginResult.zero, hotp.symm]
  · by_cases hp2 : r.Path = otpPath
    · cases htok : findCsrf text with
      | none =>
        refine ⟨⟨some (otpURL c, otpForm lr.csrftoken otp), none,
          some (.errorf "failed to get csrftoken".toList)⟩, ?_, rfl, ?_⟩
        · simp [LoginResult.SubmitOTP, hc, hpost, hbody, hstatus, hp2, hotp, htok]
        · simp [hp2, hotp]
      | some tok =>
        refine ⟨⟨some (otpURL c, otpForm lr.csrftoken otp), some ⟨none, true, tok⟩,
          some .ErrLoginFailed⟩, ?_, rfl, ?_⟩
        · simp [LoginResult.SubmitOTP, hc, hpost, hbody, hstatus, hp2, hotp, htok]
        · simp [hp2, hotp, LoginResult.HasOTP]
    · refine ⟨⟨some (otpURL c, otpForm lr.csrftoken otp), some LoginResult.zero,
        some .ErrLoginFailed⟩, ?_, rfl, ?_⟩
      · simp [LoginResult.SubmitOTP, hc, hpost, hbody, hstatus, hp1, hp2]
      · simp [hp1, hp2, LoginResult.HasOTP, LoginResult.zero]

/-- C10 (amended), at `otpResult` answered again by the one-time-password
page `tokenPage`: the call returns a result with `HasOTP` true and the new
token `tok123`. -/
theorem submitOTP_classification_witness :
    ∃ out, otpResult.SubmitOTP (fixedEnv (otpResponse tokenPage)) "812028".toList = some out ∧
      (∃ res, out.result = some res ∧ res.HasOTP = true ∧ res.csrftoken = "tok123".toList) ∧
      out.err = some .ErrLoginFailed := by
  obtain ⟨out, h1, -, -, h2, -⟩ := submitOTP_classification (fixedEnv (otpResponse tokenPage))
    otpResult sampleClient "812028".toList (otpResponse tokenPage) tokenPage rfl rfl rfl rfl
  exact ⟨out, h1, (h2 rfl).1 "tok123".toList (by decide)⟩

/-! ## Login flow: the captcha fields of the posted form -/

theorem submit_posted (env : HttpEnv) (lp : LoginPage) (username password captcha : Str)
    (ct : List Nat) (henc : env.encrypt lp.rsaPublicKey password = .ok ct) :
    (lp.Submit env username password captcha).posted =
      some (loginURL lp.client, loginForm lp username (env.base64 ct) captcha) := by
  simp only [LoginPage.Submit, henc]
  repeat' split
  all_goals rfl

/-- C6 (as stated) fails in both directions: a page with the captcha id
`cap1` submitted with an empty captcha text posts a form without `captcha_0`
and `captcha_1`, and a page without captcha id submitted with the text `xx`
posts a form with both fields, `captcha_0` being empty. -/
theorem submit_captcha_fields_counterexample :
    (captchaPage.HasCaptcha = true ∧
      (captchaPage.Submit (fixedEnv (otpResponse tokenPage)) "admin".toList "pw".toList []).posted
        = some (loginURL sampleClient, loginForm captchaPage "admin".toList "AQID".toList []) ∧
      (loginForm captchaPage "admin".toList "AQID".toList []).Get "captcha_0".toList = none ∧
      (loginForm captchaPage "admin".toList "AQID".toList []).Get "captcha_1".toList = none) ∧
    (samplePage.HasCaptcha = false ∧
      (samplePage.Submit (fixedEnv (otpResponse tokenPage)) "admin".toList "pw".toList
        "xx".toList).posted
        = some (loginURL sampleClient,
            loginForm samplePage "admin".toList "AQID".toList "xx".toList) ∧
      (loginForm samplePage "admin".toList "AQID".toList "xx".toList).Get "captcha_0".toList
        = some [] ∧
      (loginForm samplePage "admin".toList "AQID".toList "xx".toList).Get "captcha_1".toList
        = some "xx".toList) := by
  decide

/-- C6 (amended): whenever the password encrypts, `Submit` posts a form, and
that form contains `captcha_0` and `captcha_1` if and only if the captcha
text passed by the caller is not empty, whether or not the page carries a
captcha id; when present, `captcha_0` is the captcha id stored in the page
(empty when the page has none) and `captcha_1` is the caller's text. -/
theorem submit_captcha_fields (env : HttpEnv) (lp : LoginPage)
    (username password captcha : Str) (ct : List Nat)
    (henc : env.encrypt lp.rsaPublicKey password = .ok ct) :
    ∃ url form, (lp.Submit env username password captcha).posted = some (url, form) ∧
      ((form.Get "captcha_0".toList).isSome = true ↔ captcha ≠ []) ∧
      ((form.Get "captcha_1".toList).isSome = true ↔ captcha ≠ []) ∧
      (captcha ≠ [] →
        form.Get "captcha_0".toList = some lp.captcha0 ∧
        form.Get "captcha_1".toList = some captcha) := by
  refine ⟨_, _, submit_posted env lp username password captcha ct henc, ?_⟩
  by_cases hcap : captcha = []
  · subst hcap
    have h0 : (loginForm lp username (env.base64 ct) []).Get "captcha_0".toList = none := by
      simp only [loginForm, Values.Set, Values.Get, ne_eq, not_true_eq_false, if_false]
      rfl
    have h1 : (loginForm lp username (env.base64 ct) []).Get "captcha_1".toList = none := by
      simp only [loginForm, Values.Set, Values.Get, ne_eq, not_true_eq_false, if_false]
      rfl
    rw [h0, h1]
    simp
  · have h0 : (loginForm lp username (env.base64 ct) captcha).Get "captcha_0".toList =
        some lp.captcha0 := by
      simp only [loginForm, Values.Set, Values.Get, hcap, ne_eq, not_false_eq_true, if_true]
      rfl
    have h1 : (loginForm lp username (env.base64 ct) captcha).Get "captcha_1".toList =
        some captcha := by
      simp only [loginForm, Values.Set, Values.Get, hcap, ne_eq, not_false_eq_true, if_true]
      rfl
    rw [h0, h1]
    simp [hcap]

/-- C6 (amended), at `captchaPage` with the captcha text `xx`: the posted
form carries `captcha_0 = cap1` and `captcha_1 = xx`. -/
theorem submit_captcha_fields_witness :
    ∃ url form,
      (captchaPage.Submit (fixedEnv (otpResponse tokenPage)) "admin".toList "pw".toList
        "xx".toList).posted = some (url, form) ∧
      form.Get "captcha_0".toList = some "cap1".toList ∧
      form.Get "captcha_1".toList = some "xx".toList := by
  obtain ⟨url, form, h1, -, -, h2⟩ := submit_captcha_fields (fixedEnv (otpResponse tokenPage))
    captchaPage "admin".toList "pw".toList "xx".toList [1, 2, 3] rfl
  exact ⟨url, form, h1, h2 (by decide)⟩

/-! ## Asset lookup -/

/-- C2: for a hostname that is not empty and a status-200 response whose
body parses to `results`, `FindAssetByHostname` returns the zero asset,
false and a nil error when `results` is empty; the zero asset, false and an
error when the hostname of the first result differs from the query; and the
first result, true and a nil error otherwise.  In each case the answer does
not depend on the results after the first. -/
theorem findAsset_classification (env : AssetEnv) (c : Client) (hostname : Str)
    (r : Response) (content : Str) (results : List Asset)
    (hne : hostname ≠ [])
    (hreq : env.newRequest (assetsURL c) = none)
    (hdo : env.doRequest (assetsURL c) (assetQuery hostname) = .ok r)
    (hbody : r.Body = .ok content) (hstatus : r.StatusCode = 200)
    (hjson : env.unmarshal content = .ok results) :
    (results = [] → c.FindAssetByHostname env hostname = (Asset.zero, false, none)) ∧
    (∀ first rest, results = first :: rest → first.Hostname ≠ hostname →
      ∃ e, c.FindAssetByHostname env hostname = (Asset.zero, false, some e)) ∧
    (∀ first rest, results = first :: rest → first.Hostname = hostname →
      c.FindAssetByHostname env hostname = (first, true, none)) := by
  refine ⟨?_, ?_, ?_⟩
  · intro h
    subst h
    simp [Client.FindAssetByHostname, hne, hreq, hdo, hbody, hstatus, hjson]
  · intro first rest h hh
    subst h
    simp [Client.FindAssetByHostname, hne, hreq, hdo, hbody, hstatus, hjson, hh]
  · intro first rest h hh
    subst h
    simp [Client.FindAssetByHostname, hne, hreq, hdo, hbody, hstatus, hjson, hh]

/-- C2 at concrete responses for the query `node1`: an empty list, a first
result named `node10`, and the exact match `node1` followed by another
result. -/
theorem findAsset_classification_witness :
    sampleClient.FindAssetByHostname (assetEnv []) "node1".toList = (Asset.zero, false, none) ∧
    (∃ e, sampleClient.FindAssetByHostname
        (assetEnv [⟨"a2".toList, "node10".toList, []⟩, node1]) "node1".toList =
      (Asset.zero, false, some e)) ∧
    sampleClient.FindAssetByHostname
        (assetEnv [node1, ⟨"a2".toList, "node10".toList, []⟩]) "node1".toList =
      (node1, true, none) :=
  ⟨(findAsset_classification (assetEnv []) sampleClient "node1".toList _ [] []
      (by decide) rfl rfl rfl rfl rfl).1 rfl,
    (findAsset_classification (assetEnv [⟨"a2".toList, "node10".toList, []⟩, node1])
      sampleClient "node1".toList _ [] _ (by decide) rfl rfl rfl rfl rfl).2.1 _ _ rfl
      (by decide),
    (findAsset_classification (assetEnv [node1, ⟨"a2".toList, "node10".toList, []⟩])
      sampleClient "node1".toList _ [] _ (by decide) rfl rfl rfl rfl rfl).2.2 _ _ rfl rfl⟩

/-! ## Terminal session -/

theorem emit_fst (e : Effect) (r : List Effect × Outcome) : (emit e r).1 = e :: r.1 := rfl

theorem emit_snd (e : Effect) (r : List Effect × Outcome) : (emit e r).2 = r.2 := rfl

theorem sessionLoop_ids (cid : Str) (events : List Event) :
    ∀ lo m, m ∈ wsWrites (sessionLoop cid lo events).1 →
      ((m.Type_ = TERMINALDATA ∨ m.Type_ = TERMINALRESIZE) ∧ m.Id = cid) ∨
      (m.Type_ = PING ∧ ∃ e io, Event.wsInput m e io ∈ events) := by
  induction events with
  | nil =>
    intro lo m hm
    simp [sessionLoop, wsWrites] at hm
  | cons ev rest ih =>
    intro lo m hm
    have step : ∀ lo', m ∈ wsWrites (sessionLoop cid lo' rest).1 →
        ((m.Type_ = TERMINALDATA ∨ m.Type_ = TERMINALRESIZE) ∧ m.Id = cid) ∨
        (m.Type_ = PING ∧ ∃ e io, Event.wsInput m e io ∈ ev :: rest) := by
      intro lo' h
      rcases ih lo' m h with h | ⟨h1, e, io, h2⟩
      · exact Or.inl h
      · exact Or.inr ⟨h1, e, io, List.mem_cons_of_mem _ h2⟩
    cases ev with
    | sigwinch W H we =>
      cases we with
      | some e =>
        simp only [sessionLoop, wsWrites, List.mem_singleton] at hm
        subst hm
        exact Or.inl ⟨Or.inr rfl, rfl⟩
      | none =>
        simp only [sessionLoop, emit_fst, wsWrites, List.mem_cons] at hm
        rcases hm with rfl | hm
        · exact Or.inl ⟨Or.inr rfl, rfl⟩
        · exact step _ hm
    | ttyInput data err we =>
      by_cases herr : err = none
      · subst herr
        cases we with
        | some e =>
          simp only [sessionLoop, ne_eq, not_true_eq_false, if_false, wsWrites,
            List.mem_singleton] at hm
          subst hm
          exact Or.inl ⟨Or.inl rfl, rfl⟩
        | none =>
          simp only [sessionLoop, ne_eq, not_true_eq_false, if_false, emit_fst, wsWrites,
            List.mem_cons] at hm
          rcases hm with rfl | hm
          · exact Or.inl ⟨Or.inl rfl, rfl⟩
          · exact step _ hm
      · simp [sessionLoop, herr, wsWrites] at hm
    | wsInput msg err io =>
      by_cases herr : err = none
      · subst herr
        by_cases hd : msg.Type_ = TERMINALDATA
        · cases io with
          | some e => simp [sessionLoop, hd, wsWrites] at hm
          | none =>
            simp only [sessionLoop, ne_eq, not_true_eq_false, if_false, hd, if_true, emit_fst,
              wsWrites] at hm
            exact step _ hm
        · by_cases hc : msg.Type_ = CLOSE
          · have hcd : ¬ CLOSE = TERMINALDATA := by decide
            simp only [sessionLoop, ne_eq, not_true_eq_false, if_false, hc, hcd, if_true] at hm
            cases hl : lo.getLast? with
            | none =>
              rw [hl] at hm
              simp [wsWrites] at hm
            | some b =>
              rw [hl] at hm
              by_cases hb : b = lf <;> simp [hb, wsWrites] at hm
          · by_cases hp : msg.Type_ = PING
            · cases io with
              | some e =>
                simp only [sessionLoop, ne_eq, not_true_eq_false, if_false, hd, hc, hp, if_true,
                  wsWrites, List.mem_singleton] at hm
                subst hm
                exact Or.inr ⟨hp, none, some e, List.mem_cons_self _ _⟩
              | none =>
                simp only [sessionLoop, ne_eq, not_true_eq_false, if_false, hd, hc, hp, if_true,
                  emit_fst, wsWrites, List.mem_cons] at hm
                rcases hm with rfl | hm
                · exact Or.inr ⟨hp, none, none, List.mem_cons_self _ _⟩
                · exact step _ hm
            · simp only [sessionLoop, ne_eq, not_true_eq_false, if_false, hd, hc, hp] at hm
              exact step _ hm
      · simp [sessionLoop, herr, wsWrites] at hm

/-- C5 (as stated) fails: after `CONNECT` with id `abc`, a `PING` carrying
the id `srv` is echoed with the id `srv`. -/
theorem client_message_ids_counterexample :
    serverPing ∈ wsWrites (enterTty connectEnv [Event.wsInput serverPing none none]).1 ∧
      serverPing.Id ≠ "abc".toList ∧
      connectEnv.firstMsg = .ok ⟨"abc".toList, CONNECT, []⟩ := by
  refine ⟨by decide, by decide, rfl⟩

/-- C5 (amended): every `TERMINAL_INIT`, `TERMINAL_DATA` and
`TERMINAL_RESIZE` message the client writes carries the id of the first
message of the server; the only other messages the client writes are `PING`
messages, each one a message received from the server and written back
unchanged, so with the id the server gave it. -/
theorem client_message_ids (env : TtyEnv) (events : List Event) (first m : Message)
    (hfirst : env.firstMsg = .ok first)
    (hm : m ∈ wsWrites (enterTty env events).1) :
    ((m.Type_ = TERMINALINIT ∨ m.Type_ = TERMINALDATA ∨ m.Type_ = TERMINALRESIZE) ∧
        m.Id = first.Id) ∨
      (m.Type_ = PING ∧ ∃ e io, Event.wsInput m e io ∈ events) := by
  unfold enterTty at hm
  rw [hfirst] at hm
  simp only at hm
  split at hm
  · simp [wsWrites] at hm
  · split at hm
    · simp [wsWrites] at hm
    · split at hm
      · simp [wsWrites] at hm
      · split at hm
        · simp [wsWrites] at hm
        · split at hm
          · simp only [wsWrites, List.mem_singleton] at hm
            subst hm
            exact Or.inl ⟨Or.inl rfl, rfl⟩
          · simp only [emit_fst, wsWrites, List.mem_cons] at hm
            rcases hm with rfl | hm
            · exact Or.inl ⟨Or.inl rfl, rfl⟩
            · rcases sessionLoop_ids _ _ _ _ hm with ⟨h1, h2⟩ | h
              · exact Or.inl ⟨Or.inr h1, h2⟩
              · exact Or.inr h

/-- C5 (amended), on a schedule with a resize, local input and a `PING`: the
`TERMINAL_RESIZE` message written carries the id `abc` of `CONNECT`. -/
theorem client_message_ids_witness :
    ((TERMINALRESIZE = TERMINALINIT ∨ TERMINALRESIZE = TERMINALDATA ∨
          TERMINALRESIZE = TERMINALRESIZE) ∧ "abc".toList = "abc".toList) ∨
      (TERMINALRESIZE = PING ∧ ∃ e io,
        Event.wsInput ⟨"abc".toList, TERMINALRESIZE, sizeJSON 100 30⟩ e io ∈
          [Event.sigwinch 100 30 none, Event.ttyInput "ls".toList none none,
            Event.wsInput serverPing none none]) :=
  client_message_ids connectEnv
    [Event.sigwinch 100 30 none, Event.ttyInput "ls".toList none none,
      Event.wsInput serverPing none none]
    ⟨"abc".toList, CONNECT, []⟩ ⟨"abc".toList, TERMINALRESIZE, sizeJSON 100 30⟩ rfl (by decide)

/-- C9: when the first message is not `CONNECT`, `enterTty` returns an error
and writes nothing; when it is `CONNECT` and the terminal is opened with
size `(W, H)`, the first write of the whole run, before any other channel
message and before any byte of local output, is `TERMINAL_INIT` with the id
of that message and the data `{"cols":W,"rows":H}`; and when it is `CONNECT`
the run either writes nothing at all or starts with that write. -/
theorem handshake_first (env : TtyEnv) (events : List Event) (first : Message)
    (hfirst : env.firstMsg = .ok first) :
    (first.Type_ ≠ CONNECT →
      (∃ e, (enterTty env events).2 = .returned (some e)) ∧ (enterTty env events).1 = []) ∧
    (first.Type_ = CONNECT → ∀ W H, env.ttyOpen = none → env.ttyRaw = none →
      env.ttySize = .ok (W, H) →
      ∃ rest, (enterTty env events).1 =
        Effect.wsWrite ⟨first.Id, TERMINALINIT, sizeJSON W H⟩ :: rest) ∧
    (first.Type_ = CONNECT →
      (enterTty env events).1 = [] ∨
      ∃ W H rest, env.ttySize = .ok (W, H) ∧ (enterTty env events).1 =
        Effect.wsWrite ⟨first.Id, TERMINALINIT, sizeJSON W H⟩ :: rest) := by
  have key : first.Type_ = CONNECT → ∀ W H, env.ttyOpen = none → env.ttyRaw = none →
      env.ttySize = .ok (W, H) →
      ∃ rest, (enterTty env events).1 =
        Effect.wsWrite ⟨first.Id, TERMINALINIT, sizeJSON W H⟩ :: rest := by
    intro hc W H ho hr hs
    cases hw : env.initWrite with
    | some e => exact ⟨[], by simp [enterTty, hfirst, hc, ho, hr, hs, hw]⟩
    | none =>
      exact ⟨(sessionLoop first.Id [] events).1, by
        simp [enterTty, hfirst, hc, ho, hr, hs, hw, emit_fst]⟩
  refine ⟨?_, key, ?_⟩
  · intro hc
    simp [enterTty, hfirst, hc]
  · intro hc
    cases ho : env.ttyOpen with
    | some e => exact Or.inl (by simp [enterTty, hfirst, hc, ho])
    | none =>
      cases hr : env.ttyRaw with
      | some e => exact Or.inl (by simp [enterTty, hfirst, hc, ho, hr])
      | none =>
        cases hs : env.ttySize with
        | error e => exact Or.inl (by simp [enterTty, hfirst, hc, ho, hr, hs])
        | ok wh =>
          obtain ⟨W, H⟩ := wh
          obtain ⟨rest, h⟩ := key hc W H ho hr hs
          exact Or.inr ⟨W, H, rest, rfl, h⟩

/-- C9 at `pingFirstEnv` and at `connectEnv` (an 80 by 24 terminal) with
local input and remote data in the schedule. -/
theorem handshake_first_witness :
    ((∃ e, (enterTty pingFirstEnv [Event.wsInput serverClose none none]).2 =
          .returned (some e)) ∧
        (enterTty pingFirstEnv [Event.wsInput serverClose none none]).1 = []) ∧
      (∃ rest, (enterTty connectEnv
          [Event.wsInput (serverData "hello".toList) none none,
            Event.ttyInput "ls".toList none none]).1 =
        Effect.wsWrite ⟨"abc".toList, TERMINALINIT, sizeJSON 80 24⟩ :: rest) ∧
      sizeJSON 80 24 = "\x7b\"cols\":80,\"rows\":24\x7d".toList :=
  ⟨(handshake_first pingFirstEnv [Event.wsInput serverClose none none]
      ⟨"abc".toList, PING, []⟩ rfl).1 (by decide),
    (handshake_first connectEnv
      [Event.wsInput (serverData "hello".toList) none none,
        Event.ttyInput "ls".toList none none]
      ⟨"abc".toList, CONNECT, []⟩ rfl).2.1 rfl 80 24 rfl rfl rfl,
    by decide⟩

/-- C8: `CLOSE` received while `lastOutput` is empty makes the run panic at
`lastOutput[len(lastOutput)-1]`, both when no `TERMINAL_DATA` was received
and when the last one had an empty payload. -/
theorem close_on_empty_lastOutput :
    enterTty connectEnv [Event.wsInput serverClose none none] =
        ([Effect.wsWrite ⟨"abc".toList, TERMINALINIT, sizeJSON 80 24⟩], Outcome.panicked) ∧
      (enterTty connectEnv
        [Event.wsInput (serverData []) none none, Event.wsInput serverClose none none]).2 =
        Outcome.panicked := by
  decide

/-- C7: a failing write of the `PING` echo makes `enterTty` return nil, and
a failing write of the corrective line break at `CLOSE` is not reported
either. -/
theorem ping_write_failure_returns_nil :
    enterTty connectEnv [Event.wsInput serverPing none (some (.lib 1))] =
        ([Effect.wsWrite ⟨"abc".toList, TERMINALINIT, sizeJSON 80 24⟩,
          Effect.wsWrite serverPing], Outcome.returned none) ∧
      (enterTty connectEnv
        [Event.wsInput (serverData "hi".toList) none none,
          Event.wsInput serverClose none (some (.lib 2))]).2 = Outcome.returned none := by
  decide

/-- C4: with the remote messages `TERMINAL_DATA("hi")`, `TERMINAL_DATA("")`,
`CLOSE`, the run writes `hi` and then panics instead of appending the line
break and returning nil. -/
theorem output_empty_last_payload :
    ttyBytes (enterTty connectEnv
        (remote [serverData "hi".toList, serverData [], serverClose])).1 = "hi".toList ∧
      (enterTty connectEnv
        (remote [serverData "hi".toList, serverData [], serverClose])).2 = Outcome.panicked := by
  decide

/-! ## Terminal session: behaviour away from the failing inputs -/

theorem sessionLoop_remote (cid : Str) (msgs : List Message) :
    ∀ lo rest, (∀ m ∈ msgs, m.Type_ ≠ CLOSE) →
      ttyBytes (sessionLoop cid lo (remote msgs ++ rest)).1 =
          payloads msgs ++ ttyBytes (sessionLoop cid (lastPayload lo msgs) rest).1 ∧
        (sessionLoop cid lo (remote msgs ++ rest)).2 =
          (sessionLoop cid (lastPayload lo msgs) rest).2 := by
  induction msgs with
  | nil =>
    intro lo rest _
    simp [remote, payloads, lastPayload]
  | cons m t ih =>
    intro lo rest hno
    have hc : ¬ m.Type_ = CLOSE := hno m (List.mem_cons_self _ _)
    have ht : ∀ x ∈ t, x.Type_ ≠ CLOSE := fun x hx => hno x (List.mem_cons_of_mem _ hx)
    have hstep : remote (m :: t) ++ rest = Event.wsInput m none none :: (remote t ++ rest) := rfl
    rw [hstep]
    by_cases hd : m.Type_ = TERMINALDATA
    · obtain ⟨h1, h2⟩ := ih m.Data rest ht
      simp only [sessionLoop, ne_eq, not_true_eq_false, if_false, hd, if_true, emit_fst,
        emit_snd, ttyBytes, payloads, lastPayload, h1, h2, List.append_assoc, and_self]
    · obtain ⟨h1, h2⟩ := ih lo rest ht
      by_cases hp : m.Type_ = PING
      · have hpd : ¬ PING = TERMINALDATA := by decide
        have hpc : ¬ PING = CLOSE := by decide
        simp only [sessionLoop, ne_eq, not_true_eq_false, if_false, hp, hpd, hpc, if_true,
          emit_fst, emit_snd, ttyBytes, payloads, lastPayload, h1, h2, and_self]
      · simp only [sessionLoop, ne_eq, not_true_eq_false, if_false, hd, hc, hp,
          payloads, lastPayload, h1, h2, and_self]

/-- Away from the failing input of C4 and C8: when the handshake succeeds,
the remote messages up to the first `CLOSE` are read and written without
error and the last `TERMINAL_DATA` payload is not empty, the local output is
the concatenation of the payloads, followed by a carriage return and line
feed exactly when that last payload does not end in a line feed, and the
run returns nil. -/
theorem session_output_nonempty_last (env : TtyEnv) (first closeMsg : Message) (W H : Int)
    (msgs : List Message) (io : Option GoError) (tail : List Event)
    (hfirst : env.firstMsg = .ok first) (hconnect : first.Type_ = CONNECT)
    (ho : env.ttyOpen = none) (hr : env.ttyRaw = none) (hs : env.ttySize = .ok (W, H))
    (hw : env.initWrite = none)
    (hno : ∀ m ∈ msgs, m.Type_ ≠ CLOSE) (hclose : closeMsg.Type_ = CLOSE)
    (hlast : lastPayload [] msgs ≠ []) :
    ttyBytes (enterTty env (remote msgs ++ Event.wsInput closeMsg none io :: tail)).1 =
        payloads msgs ++
          (if (lastPayload [] msgs).getLast? = some lf then [] else "\r\n".toList) ∧
      (enterTty env (remote msgs ++ Event.wsInput closeMsg none io :: tail)).2 =
        Outcome.returned none := by
  obtain ⟨h1, h2⟩ := sessionLoop_remote first.Id msgs []
    (Event.wsInput closeMsg none io :: tail) hno
  have hcd : ¬ CLOSE = TERMINALDATA := by decide
  obtain ⟨b, hb⟩ : ∃ b, (lastPayload [] msgs).getLast? = some b := by
    cases hl : (lastPayload [] msgs).getLast? with
    | none => exact absurd (List.getLast?_eq_none_iff.1 hl) hlast
    | some b => exact ⟨b, rfl⟩
  have hloop : sessionLoop first.Id (lastPayload [] msgs)
      (Event.wsInput closeMsg none io :: tail) =
      if b ≠ lf then ([Effect.ttyWrite "\r\n".toList], Outcome.returned none)
      else ([], Outcome.returned none) := by
    simp only [sessionLoop, ne_eq, not_true_eq_false, if_false, hclose, hcd, if_true, hb]
  rw [hloop] at h1 h2
  have hrun : enterTty env (remote msgs ++ Event.wsInput closeMsg none io :: tail) =
      emit (Effect.wsWrite ⟨first.Id, TERMINALINIT, sizeJSON W H⟩)
        (sessionLoop first.Id [] (remote msgs ++ Event.wsInput closeMsg none io :: tail)) := by
    simp [enterTty, hfirst, hconnect, ho, hr, hs, hw]
  rw [hrun, emit_fst, emit_snd, ttyBytes, h1, h2, hb]
  by_cases hbl : b = lf
  · subst hbl
    simp [ttyBytes]
  · simp [hbl, ttyBytes]

/-- Away from the failing input of C7: a run of the loop returns nil only at
a `CLOSE` or at a `PING` whose echo could not be written. -/
theorem sessionLoop_nil_return (cid : Str) (events : List Event) :
    ∀ lo, (sessionLoop cid lo events).2 = Outcome.returned none →
      ∃ msg io, Event.wsInput msg none io ∈ events ∧
        (msg.Type_ = CLOSE ∨ (msg.Type_ = PING ∧ io ≠ none)) := by
  induction events with
  | nil =>
    intro lo h
    simp [sessionLoop] at h
  | cons ev rest ih =>
    intro lo h
    have step : ∀ lo', (sessionLoop cid lo' rest).2 = Outcome.returned none →
        ∃ msg io, Event.wsInput msg none io ∈ ev :: rest ∧
          (msg.Type_ = CLOSE ∨ (msg.Type_ = PING ∧ io ≠ none)) := by
      intro lo' h'
      obtain ⟨msg, io, h1, h2⟩ := ih lo' h'
      exact ⟨msg, io, List.mem_cons_of_mem _ h1, h2⟩
    cases ev with
    | sigwinch W H we =>
      cases we with
      | some e => simp [sessionLoop] at h
      | none => exact step _ (by simpa [sessionLoop, emit_snd] using h)
    | ttyInput data err we =>
      by_cases herr : err = none
      · subst herr
        cases we with
        | some e => simp [sessionLoop] at h
        | none => exact step _ (by simpa [sessionLoop, emit_snd] using h)
      · simp [sessionLoop, herr] at h
    | wsInput msg err io =>
      by_cases herr : err = none
      · subst herr
        by_cases hd : msg.Type_ = TERMINALDATA
        · cases io with
          | some e => simp [sessionLoop, hd] at h
          | none => exact step _ (by simpa [sessionLoop, hd, emit_snd] using h)
        · by_cases hc : msg.Type_ = CLOSE
          · exact ⟨msg, io, List.mem_cons_self _ _, Or.inl hc⟩
          · by_cases hp : msg.Type_ = PING
            · cases io with
              | some e =>
                exact ⟨msg, some e, List.mem_cons_self _ _, Or.inr ⟨hp, by simp⟩⟩
              | none =>
                have hpd : ¬ PING = TERMINALDATA := by decide
                have hpc : ¬ PING = CLOSE := by decide
                refine step lo ?_
                simpa only [sessionLoop, ne_eq, not_true_eq_false, if_false, hp, hpd, hpc,
                  if_true, emit_snd] using h
            · refine step lo ?_
              simpa only [sessionLoop, ne_eq, not_true_eq_false, if_false, hd, hc, hp] using h
      · simp [sessionLoop, herr] at h

/-! ## Login page -/

/-- C11: a status-200 login page with a csrf field and an `rsaPublicKey`
literal whose decoded text holds no PEM block makes `FetchLoginPage` panic:
the nil block returned by `pem.Decode` is dereferenced by `block.Bytes`. -/
theorem fetchLoginPage_no_pem_block :
    findCsrf noPemPage = some "tok0".toList ∧
      findRsaKey noPemPage = some "\"not a key\"".toList ∧
      sampleClient.FetchLoginPage
          (fetchEnv noPemPage "not a key".toList none (.ok (.rsa ⟨3233, 17⟩))) =
        FetchOutcome.panicked := by
  decide

/-- Away from the failing input of C11: `FetchLoginPage` panics exactly when
the page is served with status 200, has a csrf field and an `rsaPublicKey`
literal that is valid JSON, and `pem.Decode` finds no block in the decoded
text. -/
theorem fetchLoginPage_panicked_iff (env : FetchEnv) (c : Client) :
    c.FetchLoginPage env = FetchOutcome.panicked ↔
      ∃ r tok literal txt, env.get (loginURL c) = .ok r ∧ r.StatusCode = 200 ∧
        findCsrf (pageText env r) = some tok ∧ findRsaKey (pageText env r) = some literal ∧
        env.unmarshalString literal = .ok txt ∧ env.pemDecode txt = none := by
  constructor
  · intro h
    unfold Client.FetchLoginPage at h
    cases hg : env.get (loginURL c) with
    | error e =>
      rw [hg] at h
      cases h
    | ok r =>
      rw [hg] at h
      simp only at h
      by_cases hs : r.StatusCode = 200
      · simp only [hs, ne_eq, not_true_eq_false, if_false] at h
        cases hc : findCsrf (pageText env r) with
        | none =>
          rw [hc] at h
          cases h
        | some tok =>
          rw [hc] at h
          simp only at h
          cases hk : findRsaKey (pageText env r) with
          | none =>
            rw [hk] at h
            cases h
          | some literal =>
            rw [hk] at h
            simp only at h
            cases hj : env.unmarshalString literal with
            | error e =>
              rw [hj] at h
              cases h
            | ok txt =>
              rw [hj] at h
              simp only at h
              cases hp : env.pemDecode txt with
              | none => exact ⟨r, tok, literal, txt, rfl, hs, hc, hk, hj, hp⟩
              | some bytes =>
                rw [hp] at h
                simp only at h
                cases hx : env.parsePKIX bytes with
                | error e =>
                  rw [hx] at h
                  cases h
                | ok key =>
                  rw [hx] at h
                  cases key with
                  | other a => cases h
                  | rsa k =>
                    simp only at h
                    cases hcap : findField captchaName (pageText env r) with
                    | none =>
                      rw [hcap] at h
                      cases h
                    | some cap =>
                      rw [hcap] at h
                      cases h
      · simp only [hs, ne_eq, not_false_eq_true, if_true] at h
        cases h
  · rintro ⟨r, tok, literal, txt, hg, hs, hc, hk, hj, hp⟩
    simp [Client.FetchLoginPage, hg, hs, hc, hk, hj, hp]

/-- Away from the failing input of C11: for a page served with status 200,
a missing csrf field, an `rsaPublicKey` literal that is not valid JSON, block
bytes that are not a PKIX key and a PKIX key that is not RSA each give an
error, and an RSA key gives a login page with the extracted token and key. -/
theorem fetchLoginPage_shapes (env : FetchEnv) (c : Client) (r : Response)
    (hget : env.get (loginURL c) = .ok r) (hstatus : r.StatusCode = 200) :
    (findCsrf (pageText env r) = none →
      c.FetchLoginPage env = .failed (.errorf "failed to get csrftoken".toList)) ∧
    (∀ tok literal, findCsrf (pageText env r) = some tok →
      findRsaKey (pageText env r) = some literal →
      (∀ e, env.unmarshalString literal = .error e →
        ∃ err, c.FetchLoginPage env = .failed err) ∧
      (∀ txt bytes, env.unmarshalString literal = .ok txt → env.pemDecode txt = some bytes →
        (∀ e, env.parsePKIX bytes = .error e → ∃ err, c.FetchLoginPage env = .failed err) ∧
        (∀ a, env.parsePKIX bytes = .ok (.other a) →
          c.FetchLoginPage env =
            .failed (.errorf "invalid rsaPublicKey on login page".toList)) ∧
        (∀ k, env.parsePKIX bytes = .ok (.rsa k) →
          ∃ lp, c.FetchLoginPage env = .page lp ∧ lp.csrftoken = tok ∧
            lp.rsaPublicKey = k ∧ lp.client = c))) := by
  refine ⟨?_, ?_⟩
  · intro hc
    simp [Client.FetchLoginPage, hget, hstatus, hc]
  · intro tok literal hc hk
    refine ⟨?_, ?_⟩
    · intro e hj
      exact ⟨.errorf ("failed to parse rsaPublicKey in json form: ".toList ++ env.errorText e),
        by simp [Client.FetchLoginPage, hget, hstatus, hc, hk, hj]⟩
    · intro txt bytes hj hp
      refine ⟨?_, ?_, ?_⟩
      · intro e hx
        exact ⟨.errorf ("failed to parse rsaPublicKey in pem form: ".toList ++ env.errorText e),
          by simp [Client.FetchLoginPage, hget, hstatus, hc, hk, hj, hp, hx]⟩
      · intro a hx
        simp [Client.FetchLoginPage, hget, hstatus, hc, hk, hj, hp, hx]
      · intro k hx
        cases hcap : findField captchaName (pageText env r) with
        | none =>
          exact ⟨⟨tok, k, [], [], c⟩,
            by simp [Client.FetchLoginPage, hget, hstatus, hc, hk, hj, hp, hx, hcap],
            rfl, rfl, rfl⟩
        | some cap =>
          exact ⟨⟨tok, k, cap,
              c.endpoint ++ "/core/auth/captcha/image/".toList ++ cap ++ "/".toList, c⟩,
            by simp [Client.FetchLoginPage, hget, hstatus, hc, hk, hj, hp, hx, hcap],
            rfl, rfl, rfl⟩

/-! ## Login flow: the client of a repeated one-time-password prompt -/

/-- C12: `otpResult` is bound to `sampleClient`; answered again by the
one-time-password page, `SubmitOTP` returns a result with `HasOTP` true whose
client is nil, a further `SubmitOTP` on that result panics, while `Submit`
answered by the same page returns a result bound to the client. -/
theorem submitOTP_result_client_nil :
    otpResult.client = some sampleClient ∧
      otpResult.SubmitOTP (fixedEnv (otpResponse tokenPage)) "812028".toList =
        some ⟨some (otpURL sampleClient, otpForm "tok1".toList "812028".toList),
          some ⟨none, true, "tok123".toList⟩, some .ErrLoginFailed⟩ ∧
      LoginResult.HasOTP ⟨none, true, "tok123".toList⟩ = true ∧
      LoginResult.SubmitOTP (fixedEnv (otpResponse tokenPage)) ⟨none, true, "tok123".toList⟩
        "812029".toList = none ∧
      (samplePage.Submit (fixedEnv (otpResponse tokenPage)) "admin".toList "pw".toList
        []).result = some ⟨some sampleClient, true, "tok123".toList⟩ := by
  refine ⟨rfl, ?_, rfl, rfl, ?_⟩
  · rfl
  · decide

/-- Away from the concrete input of C12: no result returned by `SubmitOTP`
is bound to a client, so `SubmitOTP` on such a result panics. -/
theorem submitOTP_result_unbound (env env' : HttpEnv) (lr res : LoginResult)
    (otp otp' : Str) (out : LoginOut)
    (hout : lr.SubmitOTP env otp = some out) (hres : out.result = some res) :
    res.client = none ∧ res.SubmitOTP env' otp' = none := by
  have hclient : res.client = none := by
    unfold LoginResult.SubmitOTP at hout
    simp only at hout
    split at hout
    · cases hout
    · split at hout
      · cases hout
        cases hres
      · split at hout
        · cases hout
          cases hres
        · split at hout
          · cases hout
            cases hres
          · split at hout
            · split at hout
              · split at hout
                · cases hout
                  cases hres
                · cases hout
                  cases hres
                  rfl
              · cases hout
                cases hres
                rfl
            · cases hout
              cases hres
              rfl
  exact ⟨hclient, by simp [LoginResult.SubmitOTP, hclient]⟩

end Jmsh
